import Mathlib

/-!
Verification of the pngme chunk codec: a shallow embedding of
`src/chunk_type.rs` and `src/chunk.rs` (the `ChunkType` and `Chunk` types,
their constructors, accessors and the wire-frame codec), with theorems
checking the specification's claims about them.

Bytes are modelled as `Nat` (call sites carry `< 256` bounds where the Rust
`u8` type matters), byte buffers as `List Nat`, and Rust strings as their
UTF-8 byte lists.  Fallible Rust functions return an explicit result type;
code paths that panic (`unwrap` on an error, out-of-bounds slicing) are
modelled by an explicit `panic` outcome so that panics are distinguishable
from returned errors.
-/

set_option maxRecDepth 100000

namespace Pngme

/-- Models Rust `u8::is_ascii_uppercase`. -/
def isAsciiUppercase (b : Nat) : Bool := 65 ≤ b && b ≤ 90

/-- Models Rust `u8::is_ascii_lowercase`. -/
def isAsciiLowercase (b : Nat) : Bool := 97 ≤ b && b ≤ 122

/-- Models Rust `u8::is_ascii_alphabetic`. -/
def isAsciiAlphabetic (b : Nat) : Bool := isAsciiUppercase b || isAsciiLowercase b

/-- The outcome of running a fallible Rust function that may also panic:
`panic` models a Rust panic (e.g. `.unwrap()` on an `Err`, or an
out-of-bounds slice index), `err e` a returned `Err(e)`, `ok a` a
returned `Ok(a)`. -/
inductive RustResult (ε α : Type) where
  | panic : RustResult ε α
  | err (e : ε) : RustResult ε α
  | ok (a : α) : RustResult ε α
deriving DecidableEq

/-- `ChunkTypeError` from `src/chunk_type.rs`. -/
inductive ChunkTypeError where
  | ExpectAsciiBytes : ChunkTypeError
deriving DecidableEq

/-- `ChunkError` from `src/chunk.rs`. -/
inductive ChunkError where
  | LengthMismatch : ChunkError
  | CrcMismatch : ChunkError
deriving DecidableEq

/-- `ChunkType` from `src/chunk_type.rs`: a wrapper around `bytes: [u8; 4]`.
The fixed length 4 and the byte bound are invariants of the Rust types,
carried here as hypotheses (`ChunkType.wf`) where needed. -/
structure ChunkType where
  bytes : List Nat
deriving DecidableEq

/-- The invariant the Rust type system and `ChunkType::try_from` give every
constructed `ChunkType`: the byte array has length 4 (it is a `[u8; 4]`)
and every byte is ASCII alphabetic (checked by `try_from`). -/
def ChunkType.wf (t : ChunkType) : Prop :=
  t.bytes.length = 4 ∧ ∀ b ∈ t.bytes, isAsciiAlphabetic b = true

instance (t : ChunkType) : Decidable t.wf := by
  unfold ChunkType.wf; infer_instance

/-- `ChunkType::is_critical`: uppercase test on byte 0.
`bytes().get(0).unwrap()` cannot panic on a `[u8; 4]`, so it is modelled
by `getD` (the default is unreachable for length-4 byte arrays). -/
def ChunkType.is_critical (t : ChunkType) : Bool :=
  isAsciiUppercase (t.bytes.getD 0 0)

/-- `ChunkType::is_public`: uppercase test on byte 1. -/
def ChunkType.is_public (t : ChunkType) : Bool :=
  isAsciiUppercase (t.bytes.getD 1 0)

/-- `ChunkType::is_reserved_bit_valid`: uppercase test on byte 2. -/
def ChunkType.is_reserved_bit_valid (t : ChunkType) : Bool :=
  isAsciiUppercase (t.bytes.getD 2 0)

/-- `ChunkType::is_safe_to_copy`: lowercase test on byte 3. -/
def ChunkType.is_safe_to_copy (t : ChunkType) : Bool :=
  isAsciiLowercase (t.bytes.getD 3 0)

/-- `ChunkType::is_valid`. -/
def ChunkType.is_valid (t : ChunkType) : Bool :=
  t.is_reserved_bit_valid

/-- `ChunkType::try_from::<[u8; 4]>`: accepts the bytes iff all are ASCII
alphabetic.  Call sites pass length-4 lists (the Rust argument is `[u8; 4]`). -/
def ChunkType.tryFrom (value : List Nat) : Except ChunkTypeError ChunkType :=
  if value.all isAsciiAlphabetic then Except.ok ⟨value⟩
  else Except.error ChunkTypeError.ExpectAsciiBytes

/-- `ChunkType::from_str`: the Rust code runs
`s.as_bytes().try_into().unwrap()`, which panics when the string's byte
length is not 4, and then delegates to `ChunkType::try_from`. -/
def ChunkType.fromStr (s : List Nat) : RustResult ChunkTypeError ChunkType :=
  if s.length = 4 then
    match ChunkType.tryFrom s with
    | Except.ok t => RustResult.ok t
    | Except.error e => RustResult.err e
  else RustResult.panic

mutual

/-- Validity of a byte list as UTF-8, per RFC 3629 — the check performed
by Rust's `String::from_utf8`.
Byte-level rules: ASCII bytes stand alone; a leading byte in
`C2..DF` starts a 2-byte sequence, `E0..EF` a 3-byte sequence and
`F0..F4` a 4-byte sequence, with the first continuation byte's range
narrowed (`E0`, `ED`, `F0`, `F4`) to exclude overlong encodings and
surrogates; anything else (`80..C1`, `F5..FF`) is invalid. -/
def utf8Valid : List Nat → Bool
  | [] => true
  | b :: rest =>
    if b ≤ 127 then utf8Valid rest
    else if 194 ≤ b && b ≤ 223 then utf8Tail 0 128 191 rest
    else if b = 224 then utf8Tail 1 160 191 rest
    else if 225 ≤ b && b ≤ 236 then utf8Tail 1 128 191 rest
    else if b = 237 then utf8Tail 1 128 159 rest
    else if 238 ≤ b && b ≤ 239 then utf8Tail 1 128 191 rest
    else if b = 240 then utf8Tail 2 144 191 rest
    else if 241 ≤ b && b ≤ 243 then utf8Tail 2 128 191 rest
    else if b = 244 then utf8Tail 2 128 143 rest
    else false

/-- `utf8Tail k lo hi l`: the next byte of `l` lies in `lo..hi`, the `k`
bytes after it are continuation bytes `80..BF`, and the remainder is again
valid UTF-8. -/
def utf8Tail : Nat → Nat → Nat → List Nat → Bool
  | _, _, _, [] => false
  | 0, lo, hi, c :: rest => (lo ≤ c && c ≤ hi) && utf8Valid rest
  | k + 1, lo, hi, c :: rest => (lo ≤ c && c ≤ hi) && utf8Tail k 128 191 rest

end

/-- `ChunkType::to_string` (also the body of its `Display` impl):
`String::from_utf8(self.bytes().try_into().unwrap()).unwrap()`.
A Rust `String` is its UTF-8 byte vector, so the result is modelled as the
byte list; `none` models the panic of the final `.unwrap()` when the bytes
are not valid UTF-8. -/
def ChunkType.to_string (t : ChunkType) : Option (List Nat) :=
  if utf8Valid t.bytes then some t.bytes else none

/-- The generator polynomial of CRC-32/IEEE in reflected form, as used by
the `crc` crate's `checksum_ieee` (and by zlib/PNG). -/
def crc32Poly : Nat := 0xEDB88320

/-- One shift-and-conditionally-xor round of the bitwise CRC-32 algorithm
(`% 2` / `/ 2` are the low-bit test and right shift). -/
def crc32Step (crc : Nat) : Nat :=
  if crc % 2 = 1 then (crc / 2) ^^^ crc32Poly else crc / 2

/-- `n` rounds of `crc32Step`. -/
def crc32Rounds : Nat → Nat → Nat
  | 0, crc => crc
  | n + 1, crc => crc32Rounds n (crc32Step crc)

/-- Folding one message byte into the running CRC: xor it in, then run 8
bit rounds. -/
def crc32UpdateByte (crc b : Nat) : Nat := crc32Rounds 8 (crc ^^^ b)

/-- Models `crc::crc32::checksum_ieee`: the standard CRC-32/IEEE checksum
(init `0xFFFFFFFF`, reflected polynomial `0xEDB88320`, final xor
`0xFFFFFFFF`), written bit-by-bit; the crate's table-driven code computes
the same function. -/
def crc32 (data : List Nat) : Nat :=
  (data.foldl crc32UpdateByte 0xFFFFFFFF) ^^^ 0xFFFFFFFF

/-- `Chunk` from `src/chunk.rs`: a `ChunkType` plus payload bytes. -/
structure Chunk where
  chunk_type : ChunkType
  data : List Nat
deriving DecidableEq

/-- `Chunk::length`: `self.data.len() as u32` (the cast truncates mod 2^32). -/
def Chunk.length (c : Chunk) : Nat := c.data.length % 2 ^ 32

/-- `Chunk::type_and_data_bytes`: type-code bytes followed by the payload. -/
def Chunk.type_and_data_bytes (c : Chunk) : List Nat :=
  c.chunk_type.bytes ++ c.data

/-- `Chunk::crc`: CRC-32/IEEE over type-code bytes ++ payload. -/
def Chunk.crc (c : Chunk) : Nat := crc32 c.type_and_data_bytes

/-- Models `u32::to_be_bytes`: the four big-endian base-256 digits. -/
def u32ToBe (n : Nat) : List Nat :=
  [n / 2 ^ 24 % 256, n / 2 ^ 16 % 256, n / 2 ^ 8 % 256, n % 256]

/-- Models `u32::from_be_bytes` on a 4-byte slice (big-endian fold). -/
def u32FromBe (l : List Nat) : Nat :=
  l.foldl (fun acc b => acc * 256 + b) 0

/-- `Chunk::as_bytes`: big-endian length, type-code bytes, payload,
big-endian CRC. -/
def Chunk.as_bytes (c : Chunk) : List Nat :=
  u32ToBe c.length ++ c.chunk_type.bytes ++ c.data ++ u32ToBe c.crc

/-- `Chunk::try_from::<&Vec<u8>>` from `src/chunk.rs`.
`value[..4]` panics when the buffer has fewer than 4 bytes; after the
total-length check the buffer has at least 12 bytes, so the remaining
slicing cannot panic; `ChunkType::try_from(...).unwrap()` panics when the
type bytes are not all alphabetic. -/
def Chunk.tryFrom (value : List Nat) : RustResult ChunkError Chunk :=
  if value.length < 4 then RustResult.panic
  else
    let data_len := u32FromBe (value.take 4)
    let total_len := value.length
    if total_len ≠ 4 + 4 + data_len + 4 then RustResult.err ChunkError.LengthMismatch
    else
      match ChunkType.tryFrom ((value.drop 4).take 4) with
      | Except.error _ => RustResult.panic
      | Except.ok ct =>
        let data_bytes := (value.drop 8).take (total_len - 4 - 8)
        let parsed_crc := u32FromBe (value.drop (total_len - 4))
        let chunk : Chunk := ⟨ct, data_bytes⟩
        if chunk.crc ≠ parsed_crc then RustResult.err ChunkError.CrcMismatch
        else RustResult.ok chunk

/-! ### Concrete data used by the repository's tests -/

/-- The bytes of the type code string "RuSt". -/
def rustTypeBytes : List Nat := [82, 117, 83, 116]

/-- The bytes of the payload "This is where your secret message will be!"
(42 bytes). -/
def secretMsgBytes : List Nat :=
  [84, 104, 105, 115, 32, 105, 115, 32, 119, 104, 101, 114, 101, 32, 121, 111,
   117, 114, 32, 115, 101, 99, 114, 101, 116, 32, 109, 101, 115, 115, 97, 103,
   101, 32, 119, 105, 108, 108, 32, 98, 101, 33]

/-- The well-formed wire frame from the repository's tests: length 42, type
"RuSt", the 42-byte payload, CRC `2882656334` (big-endian `AB D1 D8 4E`). -/
def goodFrame : List Nat :=
  [0, 0, 0, 42] ++ rustTypeBytes ++ secretMsgBytes ++ [171, 209, 216, 78]

/-- The same frame with the checksum replaced by `2882656333`
(big-endian `AB D1 D8 4D`). -/
def badFrame : List Nat :=
  [0, 0, 0, 42] ++ rustTypeBytes ++ secretMsgBytes ++ [171, 209, 216, 77]

/-! ### Helper lemmas -/

theorem u32ToBe_length (n : Nat) : (u32ToBe n).length = 4 := rfl

theorem u32FromBe_u32ToBe {n : Nat} (h : n < 2 ^ 32) :
    u32FromBe (u32ToBe n) = n := by
  simp only [u32ToBe, u32FromBe, List.foldl]
  omega

theorem crc32Step_lt {x : Nat} (h : x < 2 ^ 32) : crc32Step x < 2 ^ 32 := by
  unfold crc32Step
  split
  · exact Nat.xor_lt_two_pow (by omega) (by norm_num [crc32Poly])
  · omega

theorem crc32Rounds_lt {n x : Nat} (h : x < 2 ^ 32) :
    crc32Rounds n x < 2 ^ 32 := by
  induction n generalizing x with
  | zero => exact h
  | succ n ih => exact ih (crc32Step_lt h)

theorem crc32UpdateByte_lt {x b : Nat} (hx : x < 2 ^ 32) (hb : b < 256) :
    crc32UpdateByte x b < 2 ^ 32 :=
  crc32Rounds_lt (Nat.xor_lt_two_pow hx (by omega))

theorem crc32_foldl_lt {l : List Nat} (hl : ∀ b ∈ l, b < 256) {x : Nat}
    (hx : x < 2 ^ 32) : l.foldl crc32UpdateByte x < 2 ^ 32 := by
  induction l generalizing x with
  | nil => exact hx
  | cons b t ih =>
    exact ih (fun y hy => hl y (List.mem_cons_of_mem _ hy))
      (crc32UpdateByte_lt hx (hl b (List.mem_cons_self _ _)))

theorem crc32_lt {l : List Nat} (hl : ∀ b ∈ l, b < 256) : crc32 l < 2 ^ 32 :=
  Nat.xor_lt_two_pow (crc32_foldl_lt hl (by norm_num)) (by norm_num)

theorem alphabetic_lt_256 {b : Nat} (h : isAsciiAlphabetic b = true) :
    b < 256 := by
  simp only [isAsciiAlphabetic, isAsciiUppercase, isAsciiLowercase,
    Bool.or_eq_true, Bool.and_eq_true, decide_eq_true_eq] at h
  omega

theorem alphabetic_lt_128 {b : Nat} (h : isAsciiAlphabetic b = true) :
    b < 128 := by
  simp only [isAsciiAlphabetic, isAsciiUppercase, isAsciiLowercase,
    Bool.or_eq_true, Bool.and_eq_true, decide_eq_true_eq] at h
  omega

theorem u32FromBe_foldl_lt :
    ∀ (l : List Nat), (∀ x ∈ l, x < 256) → ∀ acc : Nat,
      List.foldl (fun a b => a * 256 + b) acc l < (acc + 1) * 256 ^ l.length := by
  intro l
  induction l with
  | nil => intro _ acc; simp
  | cons b t ih =>
    intro h acc
    have hb : b < 256 := h b (List.mem_cons_self _ _)
    have hrec := ih (fun x hx => h x (List.mem_cons_of_mem _ hx)) (acc * 256 + b)
    simp only [List.foldl_cons, List.length_cons]
    calc List.foldl (fun a b => a * 256 + b) (acc * 256 + b) t
        < (acc * 256 + b + 1) * 256 ^ t.length := hrec
      _ ≤ ((acc + 1) * 256) * 256 ^ t.length := by
          have : acc * 256 + b + 1 ≤ (acc + 1) * 256 := by omega
          exact Nat.mul_le_mul_right _ this
      _ = (acc + 1) * 256 ^ (t.length + 1) := by ring

theorem u32FromBe_lt {l : List Nat} (h4 : l.length ≤ 4)
    (h : ∀ x ∈ l, x < 256) : u32FromBe l < 2 ^ 32 := by
  have := u32FromBe_foldl_lt l h 0
  have hpow : (256 : Nat) ^ l.length ≤ 256 ^ 4 :=
    Nat.pow_le_pow_right (by norm_num) h4
  calc u32FromBe l < (0 + 1) * 256 ^ l.length := this
    _ = 256 ^ l.length := by ring
    _ ≤ 256 ^ 4 := hpow
    _ = 2 ^ 32 := by norm_num

theorem chunkType_tryFrom_ok {tb : List Nat}
    (h : ∀ b ∈ tb, isAsciiAlphabetic b = true) :
    ChunkType.tryFrom tb = Except.ok ⟨tb⟩ := by
  unfold ChunkType.tryFrom
  rw [if_pos (List.all_eq_true.mpr h)]

/-- Running `Chunk::try_from` on a frame assembled from a 4-byte length
field (consistent with the payload length), 4 alphabetic type bytes, the
payload, and a 4-byte checksum field reaches the CRC comparison: the
result is `ok` on agreement and `CrcMismatch` otherwise. -/
theorem tryFrom_assembled (lenb tb data crcb : List Nat)
    (hlenb : lenb.length = 4) (h4 : tb.length = 4) (hc4 : crcb.length = 4)
    (hdl : u32FromBe lenb = data.length)
    (htype : ∀ b ∈ tb, isAsciiAlphabetic b = true) :
    Chunk.tryFrom (lenb ++ (tb ++ (data ++ crcb))) =
      if crc32 (tb ++ data) = u32FromBe crcb
      then RustResult.ok ⟨⟨tb⟩, data⟩
      else RustResult.err ChunkError.CrcMismatch := by
  set L := lenb ++ (tb ++ (data ++ crcb)) with hLdef
  have hLlen : L.length = 12 + data.length := by
    simp only [hLdef, List.length_append, hlenb, h4, hc4]
    omega
  have htake4 : L.take 4 = lenb := List.take_left' hlenb
  have hdrop4 : L.drop 4 = tb ++ (data ++ crcb) := List.drop_left' hlenb
  have htype4 : (L.drop 4).take 4 = tb := by
    rw [hdrop4]; exact List.take_left' h4
  have hdrop8 : L.drop 8 = data ++ crcb := by
    have h88 : L.drop 8 = (L.drop 4).drop 4 := by
      rw [List.drop_drop]
    rw [h88, hdrop4]
    exact List.drop_left' h4
  have hdata : (L.drop 8).take (L.length - 4 - 8) = data := by
    rw [hdrop8, hLlen]
    have : 12 + data.length - 4 - 8 = data.length := by omega
    rw [this]
    exact List.take_left' rfl
  have hcrcb : L.drop (L.length - 4) = crcb := by
    rw [hLlen]
    have h1 : 12 + data.length - 4 = 8 + data.length := by omega
    rw [h1, ← List.drop_drop, hdrop8]
    exact List.drop_left' rfl
  have hnot4 : ¬ (L.length < 4) := by omega
  unfold Chunk.tryFrom
  rw [if_neg hnot4]
  simp only [htake4, hdl, htype4, chunkType_tryFrom_ok htype, hdata, hcrcb,
    if_neg (show ¬ (L.length ≠ 4 + 4 + data.length + 4) from by omega)]
  have hcrc : Chunk.crc ⟨⟨tb⟩, data⟩ = crc32 (tb ++ data) := rfl
  by_cases h : crc32 (tb ++ data) = u32FromBe crcb <;>
    simp [hcrc, h]

/-! ### Claim theorems -/

/-- C1: Chunk round-trip.  For every `Chunk` with well-formed type code and
payload of at most `2^32 - 1` bytes (each a `u8`), decoding the frame
produced by `Chunk::as_bytes` with `Chunk::try_from` succeeds and returns a
chunk equal to the original (same type-code bytes, same payload). -/
theorem chunk_roundtrip (c : Chunk) (hwf : c.chunk_type.wf)
    (hlen : c.data.length < 2 ^ 32) (hdata : ∀ b ∈ c.data, b < 256) :
    Chunk.tryFrom c.as_bytes = RustResult.ok c := by
  obtain ⟨h4, halpha⟩ := hwf
  have hAs : c.as_bytes =
      u32ToBe c.data.length ++
        (c.chunk_type.bytes ++ (c.data ++ u32ToBe c.crc)) := by
    simp [Chunk.as_bytes, Chunk.length,
      Nat.mod_eq_of_lt (show c.data.length < 4294967296 from by omega),
      List.append_assoc]
  rw [hAs, tryFrom_assembled _ _ _ _ (u32ToBe_length _) h4 (u32ToBe_length _)
    (u32FromBe_u32ToBe hlen) halpha]
  have hcrclt : c.crc < 2 ^ 32 := by
    refine crc32_lt ?_
    intro b hb
    rcases List.mem_append.mp hb with hmem | hmem
    · exact alphabetic_lt_256 (halpha b hmem)
    · exact hdata b hmem
  have hcrceq : crc32 (c.chunk_type.bytes ++ c.data) = c.crc := rfl
  rw [hcrceq, u32FromBe_u32ToBe hcrclt, if_pos rfl]

/-- Witness for C1 at the test chunk ("RuSt", secret message). -/
theorem chunk_roundtrip_witness :
    Chunk.tryFrom (Chunk.as_bytes ⟨⟨rustTypeBytes⟩, secretMsgBytes⟩) =
      RustResult.ok ⟨⟨rustTypeBytes⟩, secretMsgBytes⟩ :=
  chunk_roundtrip ⟨⟨rustTypeBytes⟩, secretMsgBytes⟩ (by decide) (by decide)
    (by decide)

/-- C2: frame layout of `Chunk::as_bytes`.  For payload length `L` at most
`2^32 - 1` the frame is the 32-bit big-endian length `L`, the 4 type-code
bytes, the `L` payload bytes, and the 32-bit big-endian CRC, in that order,
for a total of `12 + L` bytes. -/
theorem as_bytes_layout (c : Chunk) (hwf : c.chunk_type.wf)
    (hlen : c.data.length < 2 ^ 32) :
    c.as_bytes =
      u32ToBe c.data.length ++ c.chunk_type.bytes ++ c.data ++ u32ToBe c.crc ∧
    c.as_bytes.length = 12 + c.data.length := by
  have h1 : c.as_bytes =
      u32ToBe c.data.length ++ c.chunk_type.bytes ++ c.data ++ u32ToBe c.crc := by
    simp [Chunk.as_bytes, Chunk.length,
      Nat.mod_eq_of_lt (show c.data.length < 4294967296 from by omega)]
  refine ⟨h1, ?_⟩
  rw [h1]
  simp only [List.length_append, u32ToBe_length, hwf.1]
  omega

/-- Witness for C2 at the test chunk. -/
theorem as_bytes_layout_witness :
    Chunk.as_bytes ⟨⟨rustTypeBytes⟩, secretMsgBytes⟩ =
      u32ToBe secretMsgBytes.length ++ rustTypeBytes ++ secretMsgBytes ++
        u32ToBe (Chunk.crc ⟨⟨rustTypeBytes⟩, secretMsgBytes⟩) ∧
    (Chunk.as_bytes ⟨⟨rustTypeBytes⟩, secretMsgBytes⟩).length =
      12 + secretMsgBytes.length :=
  as_bytes_layout ⟨⟨rustTypeBytes⟩, secretMsgBytes⟩ (by decide) (by decide)

/-- C3: decode verifies the trailing checksum.  For every well-framed
buffer (total length consistent with the length prefix, alphabetic type
bytes) decode succeeds iff the trailing big-endian 32-bit value equals the
CRC-32 of type bytes ++ payload, and fails with the checksum-mismatch error
(`ChunkError::CrcMismatch`) otherwise; in particular the test frame for
"RuSt" with checksum 2882656334 decodes successfully and the same frame
with checksum 2882656333 fails with the checksum-mismatch error. -/
theorem decode_checksum_check :
    (∀ b : List Nat,
        b.length = 12 + u32FromBe (b.take 4) →
        (∀ x ∈ (b.drop 4).take 4, isAsciiAlphabetic x = true) →
        Chunk.tryFrom b =
          if u32FromBe (b.drop (b.length - 4)) =
              crc32 ((b.drop 4).take 4 ++ (b.drop 8).take (b.length - 12))
          then RustResult.ok
            ⟨⟨(b.drop 4).take 4⟩, (b.drop 8).take (b.length - 12)⟩
          else RustResult.err ChunkError.CrcMismatch) ∧
    Chunk.tryFrom goodFrame = RustResult.ok ⟨⟨rustTypeBytes⟩, secretMsgBytes⟩ ∧
    Chunk.tryFrom badFrame = RustResult.err ChunkError.CrcMismatch := by
  refine ⟨?_, by decide, by decide⟩
  intro b hlen htype
  have hb12 : 12 ≤ b.length := by omega
  have hsplit : b.take 4 ++ ((b.drop 4).take 4 ++
      ((b.drop 8).take (b.length - 12) ++ b.drop (b.length - 4))) = b := by
    rw [show b.drop (b.length - 4) = (b.drop 8).drop (b.length - 12) from by
      rw [List.drop_drop]; congr 1; omega]
    rw [List.take_append_drop]
    rw [show b.drop 8 = (b.drop 4).drop 4 from by rw [List.drop_drop]]
    rw [List.take_append_drop, List.take_append_drop]
  have hlen1 : (b.take 4).length = 4 := by
    rw [List.length_take]; omega
  have hlen2 : ((b.drop 4).take 4).length = 4 := by
    rw [List.length_take, List.length_drop]; omega
  have hlen4 : (b.drop (b.length - 4)).length = 4 := by
    rw [List.length_drop]; omega
  have hdl : u32FromBe (b.take 4) = ((b.drop 8).take (b.length - 12)).length := by
    rw [List.length_take, List.length_drop]; omega
  have hmain := tryFrom_assembled (b.take 4) ((b.drop 4).take 4)
    ((b.drop 8).take (b.length - 12)) (b.drop (b.length - 4))
    hlen1 hlen2 hlen4 hdl htype
  rw [hsplit] at hmain
  rw [hmain]
  exact if_congr eq_comm rfl rfl

/-- Witness for C3 at a small frame: declared length 0, type "ABCD",
empty payload, trailing CRC `3675725989` = CRC-32("ABCD"). -/
theorem decode_checksum_check_witness :
    Chunk.tryFrom [0, 0, 0, 0, 65, 66, 67, 68, 219, 23, 32, 165] =
      RustResult.ok ⟨⟨[65, 66, 67, 68]⟩, []⟩ := by
  have h := decode_checksum_check.1 [0, 0, 0, 0, 65, 66, 67, 68, 219, 23, 32, 165]
    (by decide) (by decide)
  rw [h]
  decide

/-- C10: decode postcondition.  When `Chunk::try_from` succeeds on a `u8`
buffer `b` with chunk `c`, then `c.length()` is the big-endian `u32` at
bytes 0..4, `c.chunk_type()`'s bytes are bytes 4..8, `c.data()` is bytes
8..(len-4), and `c.crc()` is the big-endian `u32` in the last 4 bytes. -/
theorem decode_postcondition (b : List Nat) (c : Chunk)
    (h256 : ∀ x ∈ b, x < 256) (h : Chunk.tryFrom b = RustResult.ok c) :
    Chunk.length c = u32FromBe (b.take 4) ∧
    c.chunk_type.bytes = (b.drop 4).take 4 ∧
    c.data = (b.drop 8).take (b.length - 12) ∧
    Chunk.crc c = u32FromBe (b.drop (b.length - 4)) := by
  unfold Chunk.tryFrom at h
  by_cases h4 : b.length < 4
  · rw [if_pos h4] at h; exact absurd h (by simp)
  rw [if_neg h4] at h
  simp only [ne_eq] at h
  by_cases hlc : ¬ (b.length = 4 + 4 + u32FromBe (b.take 4) + 4)
  · rw [if_pos hlc] at h; exact absurd h (by simp)
  rw [if_neg hlc] at h
  push_neg at hlc
  rcases hct : ChunkType.tryFrom ((b.drop 4).take 4) with e | ct
  · rw [hct] at h; exact absurd h (by simp)
  rw [hct] at h
  simp only [] at h
  by_cases hcrc :
      ¬ (Chunk.crc ⟨ct, (b.drop 8).take (b.length - 4 - 8)⟩ =
        u32FromBe (b.drop (b.length - 4)))
  · rw [if_pos hcrc] at h; exact absurd h (by simp)
  rw [if_neg hcrc] at h
  push_neg at hcrc
  injection h with hchunk
  subst hchunk
  have hctEq : ct = ⟨(b.drop 4).take 4⟩ := by
    unfold ChunkType.tryFrom at hct
    by_cases hall : ((b.drop 4).take 4).all isAsciiAlphabetic
    · rw [if_pos hall] at hct
      injection hct with hx
      exact hx.symm
    · rw [if_neg hall] at hct
      exact absurd hct (by simp)
  have hdl_lt : u32FromBe (b.take 4) < 2 ^ 32 := by
    refine u32FromBe_lt ?_ ?_
    · rw [List.length_take]; omega
    · intro x hx; exact h256 x (List.take_subset 4 b hx)
  have hdlen : ((b.drop 8).take (b.length - 4 - 8)).length =
      u32FromBe (b.take 4) := by
    rw [List.length_take, List.length_drop]; omega
  refine ⟨?_, ?_, ?_, ?_⟩
  · show ((b.drop 8).take (b.length - 4 - 8)).length % 2 ^ 32 = _
    rw [hdlen, Nat.mod_eq_of_lt hdl_lt]
  · rw [hctEq]
  · show (b.drop 8).take (b.length - 4 - 8) = (b.drop 8).take (b.length - 12)
    congr 1
  · exact hcrc

/-- Witness for C10 at the test frame for "RuSt". -/
theorem decode_postcondition_witness :
    Chunk.length ⟨⟨rustTypeBytes⟩, secretMsgBytes⟩ =
      u32FromBe (goodFrame.take 4) ∧
    (ChunkType.mk rustTypeBytes).bytes = (goodFrame.drop 4).take 4 ∧
    secretMsgBytes = (goodFrame.drop 8).take (goodFrame.length - 12) ∧
    Chunk.crc ⟨⟨rustTypeBytes⟩, secretMsgBytes⟩ =
      u32FromBe (goodFrame.drop (goodFrame.length - 4)) :=
  decode_postcondition goodFrame ⟨⟨rustTypeBytes⟩, secretMsgBytes⟩
    (by decide) (by decide)

/-- C4 counterexample: on buffers of fewer than 8 bytes `Chunk::try_from`
does not return a frame-too-short error (no such variant exists in
`ChunkError`): on the empty buffer the slice `value[..4]` panics, and on a
4-byte buffer it returns `LengthMismatch`. -/
theorem short_buffer_counterexample :
    Chunk.tryFrom ([] : List Nat) = RustResult.panic ∧
    Chunk.tryFrom [0, 0, 0, 0] = RustResult.err ChunkError.LengthMismatch := by
  decide

/-- C4 (amended): for every input buffer of fewer than 4 bytes
`Chunk::try_from` panics (indexing `value[..4]` out of bounds); for every
buffer of 4 to 7 bytes it returns the `LengthMismatch` error. -/
theorem short_buffer_behavior (b : List Nat) (h8 : b.length < 8) :
    (b.length < 4 → Chunk.tryFrom b = RustResult.panic) ∧
    (4 ≤ b.length →
      Chunk.tryFrom b = RustResult.err ChunkError.LengthMismatch) := by
  constructor
  · intro h4
    unfold Chunk.tryFrom
    rw [if_pos h4]
  · intro h4
    unfold Chunk.tryFrom
    rw [if_neg (by omega)]
    simp only [ne_eq]
    rw [if_pos (by omega)]

/-- Witness for the amended C4 at a 3-byte and a 5-byte buffer. -/
theorem short_buffer_behavior_witness :
    Chunk.tryFrom [1, 2, 3] = RustResult.panic ∧
    Chunk.tryFrom [0, 0, 0, 1, 5] = RustResult.err ChunkError.LengthMismatch :=
  ⟨(short_buffer_behavior [1, 2, 3] (by decide)).1 (by decide),
   (short_buffer_behavior [0, 0, 0, 1, 5] (by decide)).2 (by decide)⟩

/-- C5: on a well-framed 12-byte buffer whose type code "Ru1t" contains the
non-alphabetic byte `49`, `Chunk::try_from` panics (it calls
`ChunkType::try_from(...).unwrap()` on the `Err`), instead of propagating
an invalid-type-code failure value. -/
theorem invalid_type_code_panics :
    Chunk.tryFrom [0, 0, 0, 0, 82, 117, 49, 116, 0, 0, 0, 0] =
      RustResult.panic := by
  decide

/-- C6: `ChunkType::from_str` panics on the 5-byte string "RuStX"
(`s.as_bytes().try_into().unwrap()` fails), instead of returning an
invalid-type-code error; on 4-byte strings it returns the error exactly
when a byte is not alphabetic ("Ru1t" fails, "RuSt" succeeds). -/
theorem fromStr_wrong_length_panics :
    ChunkType.fromStr [82, 117, 83, 116, 88] = RustResult.panic ∧
    ChunkType.fromStr [82, 117, 49, 116] =
      RustResult.err ChunkTypeError.ExpectAsciiBytes ∧
    ChunkType.fromStr [82, 117, 83, 116] =
      RustResult.ok ⟨[82, 117, 83, 116]⟩ := by
  decide

/-- For an ASCII-alphabetic byte, the uppercase and lowercase tests are
complementary. -/
theorem alpha_case_split {b : Nat} (h : isAsciiAlphabetic b = true) :
    (isAsciiUppercase b = true ↔ isAsciiLowercase b = false) ∧
    (isAsciiUppercase b = false ↔ isAsciiLowercase b = true) := by
  simp only [isAsciiAlphabetic, isAsciiUppercase, isAsciiLowercase,
    Bool.or_eq_true, Bool.and_eq_true, decide_eq_true_eq] at h
  simp only [isAsciiUppercase, isAsciiLowercase, Bool.and_eq_true,
    decide_eq_true_eq, Bool.and_eq_false_iff, decide_eq_false_iff_not]
  omega

/-- C7 counterexample: the successfully constructed type code "RuSt" has
`is_safe_to_copy` (the position-3 flag) equal to `true` although byte 3
(`116`, lowercase `t`) is not uppercase — refuting "each flag is true iff
the byte at its position is uppercase" for the copy-safe flag. -/
theorem copy_safe_flag_counterexample :
    ChunkType.tryFrom [82, 117, 83, 116] = Except.ok ⟨[82, 117, 83, 116]⟩ ∧
    ChunkType.is_safe_to_copy ⟨[82, 117, 83, 116]⟩ = true ∧
    isAsciiUppercase 116 = false ∧ isAsciiLowercase 116 = true :=
  ⟨rfl, by decide, by decide, by decide⟩

/-- C7 (amended): for every successfully constructed type code, the flags
at positions 0 (critical), 1 (public) and 2 (reserved-bit-valid) are true
iff the byte is uppercase and false iff it is lowercase, while the
copy-safe flag at position 3 is true iff the byte is lowercase and false
iff it is uppercase. -/
theorem flag_mapping (t : ChunkType) (h : t.wf) :
    (t.is_critical = true ↔ isAsciiUppercase (t.bytes.getD 0 0) = true) ∧
    (t.is_critical = false ↔ isAsciiLowercase (t.bytes.getD 0 0) = true) ∧
    (t.is_public = true ↔ isAsciiUppercase (t.bytes.getD 1 0) = true) ∧
    (t.is_public = false ↔ isAsciiLowercase (t.bytes.getD 1 0) = true) ∧
    (t.is_reserved_bit_valid = true ↔
      isAsciiUppercase (t.bytes.getD 2 0) = true) ∧
    (t.is_reserved_bit_valid = false ↔
      isAsciiLowercase (t.bytes.getD 2 0) = true) ∧
    (t.is_safe_to_copy = true ↔ isAsciiLowercase (t.bytes.getD 3 0) = true) ∧
    (t.is_safe_to_copy = false ↔
      isAsciiUppercase (t.bytes.getD 3 0) = true) := by
  obtain ⟨h4, halpha⟩ := h
  rcases t with ⟨bytes⟩
  rcases bytes with _ | ⟨b0, bytes⟩
  · simp at h4
  rcases bytes with _ | ⟨b1, bytes⟩
  · simp at h4
  rcases bytes with _ | ⟨b2, bytes⟩
  · simp at h4
  rcases bytes with _ | ⟨b3, bytes⟩
  · simp at h4
  rcases bytes with _ | ⟨b4, bytes⟩
  case cons.cons.cons.cons.cons =>
    simp only [List.length_cons] at h4
    omega
  have ha0 : isAsciiAlphabetic b0 = true := halpha b0 (by simp)
  have ha1 : isAsciiAlphabetic b1 = true := halpha b1 (by simp)
  have ha2 : isAsciiAlphabetic b2 = true := halpha b2 (by simp)
  have ha3 : isAsciiAlphabetic b3 = true := halpha b3 (by simp)
  simp only [ChunkType.is_critical, ChunkType.is_public,
    ChunkType.is_reserved_bit_valid, ChunkType.is_safe_to_copy,
    List.getD_cons_zero, List.getD_cons_succ]
  exact ⟨trivial, (alpha_case_split ha0).2, trivial, (alpha_case_split ha1).2,
    trivial, (alpha_case_split ha2).2, trivial,
    ((alpha_case_split ha3).1).symm⟩

/-- Witness for the amended C7 at the type code "RuSt". -/
theorem flag_mapping_witness :
    ChunkType.is_safe_to_copy ⟨[82, 117, 83, 116]⟩ = true ∧
    ChunkType.is_critical ⟨[82, 117, 83, 116]⟩ = true := by
  have h := flag_mapping ⟨[82, 117, 83, 116]⟩ (by decide)
  exact ⟨h.2.2.2.2.2.2.1.mpr (by decide), h.1.mpr (by decide)⟩

/-- C8: concrete flag values — for "RuSt": critical true, public false,
reserved-bit-valid true, copy-safe true; for "Rust": reserved-bit-valid
false; for "RuST": copy-safe false (all via `from_str`). -/
theorem concrete_flags :
    ChunkType.fromStr [82, 117, 83, 116] =
      RustResult.ok ⟨[82, 117, 83, 116]⟩ ∧
    ChunkType.is_critical ⟨[82, 117, 83, 116]⟩ = true ∧
    ChunkType.is_public ⟨[82, 117, 83, 116]⟩ = false ∧
    ChunkType.is_reserved_bit_valid ⟨[82, 117, 83, 116]⟩ = true ∧
    ChunkType.is_safe_to_copy ⟨[82, 117, 83, 116]⟩ = true ∧
    ChunkType.fromStr [82, 117, 115, 116] =
      RustResult.ok ⟨[82, 117, 115, 116]⟩ ∧
    ChunkType.is_reserved_bit_valid ⟨[82, 117, 115, 116]⟩ = false ∧
    ChunkType.fromStr [82, 117, 83, 84] = RustResult.ok ⟨[82, 117, 83, 84]⟩ ∧
    ChunkType.is_safe_to_copy ⟨[82, 117, 83, 84]⟩ = false := by
  decide

/-- An all-ASCII byte list is valid UTF-8. -/
theorem utf8Valid_of_ascii :
    ∀ {l : List Nat}, (∀ b ∈ l, b < 128) → utf8Valid l = true := by
  intro l
  induction l with
  | nil => intro _; rfl
  | cons b t ih =>
    intro h
    have hb : b < 128 := h b (List.mem_cons_self _ _)
    rw [utf8Valid, if_pos (by omega)]
    exact ih fun x hx => h x (List.mem_cons_of_mem _ hx)

/-- C9: textual rendering of a successfully constructed type code never
panics — the UTF-8 conversion in `to_string` succeeds (its failure branch
is unreachable under the construction invariant) and returns exactly the 4
stored bytes, all ASCII. -/
theorem to_string_total (t : ChunkType) (h : t.wf) :
    ChunkType.to_string t = some t.bytes ∧ t.bytes.length = 4 ∧
    ∀ b ∈ t.bytes, b < 128 := by
  obtain ⟨h4, halpha⟩ := h
  have h128 : ∀ b ∈ t.bytes, b < 128 :=
    fun b hb => alphabetic_lt_128 (halpha b hb)
  refine ⟨?_, h4, h128⟩
  unfold ChunkType.to_string
  rw [if_pos (utf8Valid_of_ascii h128)]

/-- Witness for C9 at the type code "RuSt". -/
theorem to_string_total_witness :
    ChunkType.to_string ⟨[82, 117, 83, 116]⟩ = some [82, 117, 83, 116] ∧
    ([82, 117, 83, 116] : List Nat).length = 4 ∧
    ∀ b ∈ ([82, 117, 83, 116] : List Nat), b < 128 :=
  to_string_total ⟨[82, 117, 83, 116]⟩ (by decide)

end Pngme
